import Mathlib

/-!
Verification of the time-failure pattern detector
(`src/time_unittest.py`): a `Pod` record with a derived `uptime`
attribute and an order-preserving filter
`detect_time_failure_pattern` selecting pods whose uptime lies within
a tolerance of an expected time-to-failure.

Modelling choices:
* timestamps (`datetime`) and durations (`timedelta`) are integers
  (seconds); subtraction and comparison coincide with Python's;
* the wall-clock read `datetime.now()` is an explicit `now : Int`
  parameter, threaded through `uptime` and the detector;
* `Optional[datetime]` is `Option Int`; Python truthiness of a
  `datetime` value is `Option.isSome` (a `datetime` is always truthy);
* the Python accumulator loop `matching_pods.append(pod)` is a
  `List.foldl` appending on the right.
-/

namespace TimeFailure

/-- The pod record of the source file: `name`, `status` (a free-form
string in the source), `start_time`, and an optional `failure_time`
(default `None`). -/
structure Pod where
  name : String
  status : String
  start_time : Int
  failure_time : Option Int
deriving Repr, DecidableEq

/-- The terminal-failure statuses, the list
`['Failed', 'Error', 'CrashLoopBackOff']` appearing in the source. -/
def terminalFailureStates : List String := ["Failed", "Error", "CrashLoopBackOff"]

/-- `Pod.uptime`: `failure_time - start_time` when `failure_time` is
truthy and the status is terminal-failure; `now - start_time` when the
status is `Running`; zero otherwise.  The source reads
`datetime.now()`; here the current instant is the parameter `now`. -/
def Pod.uptime (pod : Pod) (now : Int) : Int :=
  match pod.failure_time with
  | some ft =>
    if pod.status ∈ terminalFailureStates then ft - pod.start_time
    else if pod.status = "Running" then now - pod.start_time
    else 0
  | none =>
    if pod.status = "Running" then now - pod.start_time
    else 0

/-- Default `expected_failure_time` of the source:
`timedelta(minutes=10)`, i.e. 600 seconds. -/
def default_expected_failure_time : Int := 600

/-- Default `tolerance` of the source: `timedelta(seconds=30)`. -/
def default_tolerance : Int := 30

/-- `detect_time_failure_pattern`: iterate over the input in order and
append to `matching_pods` every pod whose status is terminal-failure,
whose `failure_time` is truthy, and whose uptime deviates from
`expected_failure_time` by at most `tolerance`. -/
def detect_time_failure_pattern (pods : List Pod) (now : Int)
    (expected_failure_time : Int) (tolerance : Int) : List Pod :=
  pods.foldl
    (fun matching_pods pod =>
      if pod.status ∈ terminalFailureStates ∧ pod.failure_time.isSome then
        let uptime := pod.uptime now
        let time_diff := |uptime - expected_failure_time|
        if time_diff ≤ tolerance then matching_pods ++ [pod] else matching_pods
      else matching_pods)
    []

/-- The per-pod match test: the gate of the detector's `if` together
with the tolerance comparison, as a single Boolean predicate. -/
def matchesPattern (now expected_failure_time tolerance : Int) (pod : Pod) : Bool :=
  decide ((pod.status ∈ terminalFailureStates ∧ pod.failure_time.isSome) ∧
    |pod.uptime now - expected_failure_time| ≤ tolerance)

/-! ### Closed form: the detector is a filter -/

theorem detect_foldl_acc (pods : List Pod) (now e t : Int) (acc : List Pod) :
    pods.foldl
      (fun matching_pods pod =>
        if pod.status ∈ terminalFailureStates ∧ pod.failure_time.isSome then
          let uptime := pod.uptime now
          let time_diff := |uptime - e|
          if time_diff ≤ t then matching_pods ++ [pod] else matching_pods
        else matching_pods)
      acc = acc ++ pods.filter (matchesPattern now e t) := by
  induction pods generalizing acc with
  | nil => simp
  | cons pod rest ih =>
    simp only [List.foldl_cons, List.filter_cons, matchesPattern]
    by_cases hg : pod.status ∈ terminalFailureStates ∧ pod.failure_time.isSome
    · by_cases hd : |pod.uptime now - e| ≤ t
      · simp [hg, hd, ih]
      · simp [hg, hd, ih]
    · simp [hg, ih]

theorem detect_eq_filter (pods : List Pod) (now e t : Int) :
    detect_time_failure_pattern pods now e t = pods.filter (matchesPattern now e t) := by
  simpa using detect_foldl_acc pods now e t []

/-! ### Claim theorems -/

/-- C1: for every input list and every pair of duration parameters,
`detect_time_failure_pattern` returns a sub-sequence of the input
(retained elements kept in their original relative order, each element
the very same record value as in the input, hence no field mutated),
whose members are exactly the pods passing the gates with
deviation ≤ tolerance; empty input yields empty output. -/
theorem detect_is_gated_subsequence (pods : List Pod) (now e t : Int) :
    List.Sublist (detect_time_failure_pattern pods now e t) pods ∧
    (∀ pod, pod ∈ detect_time_failure_pattern pods now e t ↔
      pod ∈ pods ∧ (pod.status ∈ terminalFailureStates ∧ pod.failure_time.isSome) ∧
      |pod.uptime now - e| ≤ t) ∧
    detect_time_failure_pattern [] now e t = [] := by
  refine ⟨?_, ?_, rfl⟩
  · rw [detect_eq_filter]; exact List.filter_sublist _
  · intro pod
    rw [detect_eq_filter, List.mem_filter, matchesPattern, decide_eq_true_eq]

/-- C3: a pod whose status is not one of `Failed`, `Error`,
`CrashLoopBackOff` is never contained in the result, whatever its
`start_time` and `failure_time`. -/
theorem non_terminal_status_never_in_result (pods : List Pod) (now e t : Int)
    (pod : Pod) (h : pod.status ∉ terminalFailureStates) :
    pod ∉ detect_time_failure_pattern pods now e t := by
  rw [detect_eq_filter]
  intro hmem
  have hp := (List.mem_filter.mp hmem).2
  rw [matchesPattern, decide_eq_true_eq] at hp
  exact h hp.1.1

theorem non_terminal_status_witness :
    ("Running" ∉ terminalFailureStates) ∧
    Pod.mk "pod-1" "Running" 0 none ∉
      detect_time_failure_pattern [Pod.mk "pod-1" "Running" 0 none] 600 600 30 :=
  ⟨by decide,
    non_terminal_status_never_in_result [Pod.mk "pod-1" "Running" 0 none] 600 600 30
      (Pod.mk "pod-1" "Running" 0 none) (by decide)⟩

/-- C4: a pod with a terminal-failure status but no `failure_time` is
never contained in the result. -/
theorem missing_failure_time_never_in_result (pods : List Pod) (now e t : Int)
    (pod : Pod) (hstatus : pod.status ∈ terminalFailureStates)
    (hft : pod.failure_time = none) :
    pod ∉ detect_time_failure_pattern pods now e t := by
  rw [detect_eq_filter]
  intro hmem
  have hp := (List.mem_filter.mp hmem).2
  rw [matchesPattern, decide_eq_true_eq, hft] at hp
  exact absurd hp.1.2 (by simp)

theorem missing_failure_time_witness :
    ("Failed" ∈ terminalFailureStates) ∧
    Pod.mk "pod-1" "Failed" 0 none ∉
      detect_time_failure_pattern [Pod.mk "pod-1" "Failed" 0 none] 600 600 30 :=
  ⟨by decide,
    missing_failure_time_never_in_result [Pod.mk "pod-1" "Failed" 0 none] 600 600 30
      (Pod.mk "pod-1" "Failed" 0 none) (by decide) rfl⟩

/-- C5: the derived uptime is `failure_time - start_time` when the
status is terminal-failure and `failure_time` is present;
`now - start_time` when that first condition fails and the status is
`Running`; and `0` otherwise. -/
theorem uptime_cases (pod : Pod) (now : Int) :
    (∀ ft, pod.failure_time = some ft → pod.status ∈ terminalFailureStates →
      pod.uptime now = ft - pod.start_time) ∧
    (¬ (pod.failure_time.isSome ∧ pod.status ∈ terminalFailureStates) →
      pod.status = "Running" → pod.uptime now = now - pod.start_time) ∧
    (¬ (pod.failure_time.isSome ∧ pod.status ∈ terminalFailureStates) →
      pod.status ≠ "Running" → pod.uptime now = 0) := by
  refine ⟨?_, ?_, ?_⟩
  · intro ft hft hs
    simp [Pod.uptime, hft, hs]
  · intro hng hr
    cases hft : pod.failure_time with
    | none => simp [Pod.uptime, hft, hr]
    | some ft =>
      have hs : ("Running" : String) ∉ terminalFailureStates := by decide
      simp [Pod.uptime, hft, hr, hs]
  · intro hng hr
    cases hft : pod.failure_time with
    | none => simp [Pod.uptime, hft, hr]
    | some ft =>
      have hs : pod.status ∉ terminalFailureStates := fun hs =>
        hng ⟨by simp [hft], hs⟩
      simp [Pod.uptime, hft, hs, hr]

theorem uptime_cases_witness :
    (Pod.mk "pod-1" "Failed" 0 (some 600)).uptime 5 = 600 :=
  (uptime_cases (Pod.mk "pod-1" "Failed" 0 (some 600)) 5).1 600 rfl (by decide)

theorem matchesPattern_now_independent (e t now1 now2 : Int) (pod : Pod) :
    matchesPattern now1 e t pod = matchesPattern now2 e t pod := by
  unfold matchesPattern
  by_cases hg : pod.status ∈ terminalFailureStates ∧ pod.failure_time.isSome
  · obtain ⟨hs, hf⟩ := hg
    obtain ⟨ft, hft⟩ := Option.isSome_iff_exists.mp hf
    simp [Pod.uptime, hft, hs]
  · simp [hg]

/-- C6: the result never depends on the wall-clock instant: two
evaluations of the detector on the same pods and parameters at
different `now` values agree, and every retained pod has a present
`failure_time` with its uptime equal to `failure_time - start_time`
at every instant (the `Running` branch is never reached for it). -/
theorem detect_independent_of_wall_clock (pods : List Pod) (e t now1 now2 : Int) :
    detect_time_failure_pattern pods now1 e t = detect_time_failure_pattern pods now2 e t ∧
    ∀ pod ∈ detect_time_failure_pattern pods now1 e t,
      ∃ ft, pod.failure_time = some ft ∧
        ∀ now, pod.uptime now = ft - pod.start_time := by
  constructor
  · rw [detect_eq_filter, detect_eq_filter]
    exact List.filter_congr fun pod _ => matchesPattern_now_independent e t now1 now2 pod
  · intro pod hmem
    rw [detect_eq_filter] at hmem
    have hp := (List.mem_filter.mp hmem).2
    rw [matchesPattern, decide_eq_true_eq] at hp
    obtain ⟨ft, hft⟩ := Option.isSome_iff_exists.mp hp.1.2
    exact ⟨ft, hft, fun now => by simp [Pod.uptime, hft, hp.1.1]⟩

theorem detect_wall_clock_witness :
    detect_time_failure_pattern [Pod.mk "pod-1" "Failed" 0 (some 600)] 0 600 30 =
      detect_time_failure_pattern [Pod.mk "pod-1" "Failed" 0 (some 600)] 999 600 30 ∧
    ∃ ft, (Pod.mk "pod-1" "Failed" 0 (some 600)).failure_time = some ft ∧
      ∀ now, (Pod.mk "pod-1" "Failed" 0 (some 600)).uptime now =
        ft - (Pod.mk "pod-1" "Failed" 0 (some 600)).start_time := by
  have h := detect_independent_of_wall_clock [Pod.mk "pod-1" "Failed" 0 (some 600)] 600 30 0 999
  exact ⟨h.1, h.2 (Pod.mk "pod-1" "Failed" 0 (some 600)) (by decide)⟩

/-- C2 counterexample: under the default parameters, a `Running` pod
whose elapsed time at the evaluation instant is exactly the expected
failure time has deviation `0 ≤ tolerance`, yet it is not in the
result — so "appears in the result iff deviation ≤ tolerance" fails
for instances that do not pass the gates. -/
theorem running_pod_within_tolerance_excluded :
    |(Pod.mk "pod-r" "Running" 0 none).uptime 600 - default_expected_failure_time| ≤
      default_tolerance ∧
    Pod.mk "pod-r" "Running" 0 none ∉
      detect_time_failure_pattern [Pod.mk "pod-r" "Running" 0 none] 600
        default_expected_failure_time default_tolerance := by
  decide

/-- C2 amended: for every pod in the input that passes the gates
(terminal-failure status and present `failure_time`), the pod appears
in the result iff `|uptime - expected_failure_time| ≤ tolerance`,
boundary equality included. -/
theorem gated_pod_in_result_iff_within_tolerance (pods : List Pod) (now e t : Int)
    (pod : Pod) (hmem : pod ∈ pods) (hstatus : pod.status ∈ terminalFailureStates)
    (hft : pod.failure_time.isSome) :
    pod ∈ detect_time_failure_pattern pods now e t ↔ |pod.uptime now - e| ≤ t := by
  rw [detect_eq_filter, List.mem_filter, matchesPattern, decide_eq_true_eq]
  constructor
  · exact fun h => h.2.2
  · exact fun h => ⟨hmem, ⟨hstatus, hft⟩, h⟩

theorem gated_pod_witness :
    Pod.mk "pod-1" "Failed" 0 (some 600) ∈
      detect_time_failure_pattern [Pod.mk "pod-1" "Failed" 0 (some 600)] 0 600 30 :=
  (gated_pod_in_result_iff_within_tolerance [Pod.mk "pod-1" "Failed" 0 (some 600)]
    0 600 30 (Pod.mk "pod-1" "Failed" 0 (some 600))
    (by decide) (by decide) (by decide)).mpr (by decide)

/-- C7: no timestamp-ordering validation: for a terminal-failure pod
with `failure_time` present but earlier than `start_time`, uptime is
the negative duration `failure_time - start_time` (no clamping, no
error), and this value feeds the matching test through
`deviation = |uptime - expected_failure_time|`. -/
theorem negative_uptime_propagated (pod : Pod) (now ft : Int)
    (hft : pod.failure_time = some ft) (hstatus : pod.status ∈ terminalFailureStates)
    (hneg : ft < pod.start_time) :
    pod.uptime now = ft - pod.start_time ∧ pod.uptime now < 0 ∧
    ∀ (pods : List Pod) (e t : Int), pod ∈ pods →
      (pod ∈ detect_time_failure_pattern pods now e t ↔
        |(ft - pod.start_time) - e| ≤ t) := by
  have hu : pod.uptime now = ft - pod.start_time := by
    simp [Pod.uptime, hft, hstatus]
  refine ⟨hu, by rw [hu]; omega, ?_⟩
  intro pods e t hmem
  rw [detect_eq_filter, List.mem_filter, matchesPattern, decide_eq_true_eq, hu]
  constructor
  · exact fun h => h.2.2
  · exact fun h => ⟨hmem, ⟨hstatus, by simp [hft]⟩, h⟩

theorem negative_uptime_witness :
    (Pod.mk "pod-1" "Failed" 100 (some 40)).uptime 0 = -60 ∧
    Pod.mk "pod-1" "Failed" 100 (some 40) ∈
      detect_time_failure_pattern [Pod.mk "pod-1" "Failed" 100 (some 40)] 0 (-60) 0 := by
  have h := negative_uptime_propagated (Pod.mk "pod-1" "Failed" 100 (some 40)) 0 40
    rfl (by decide) (by decide)
  exact ⟨h.1, (h.2.2 [Pod.mk "pod-1" "Failed" 100 (some 40)] (-60) 0 (by decide)).mpr
    (by decide)⟩

/-- C8: the detector is a total function with no error outcome: for
every input list, every instant and every pair of duration parameters
(negative values included, no input validation), it is defined and
equal to the closed-form order-preserving filter by `matchesPattern`. -/
theorem detect_total_no_errors (pods : List Pod) (now e t : Int) :
    detect_time_failure_pattern pods now e t = pods.filter (matchesPattern now e t) :=
  detect_eq_filter pods now e t

/-- C9: the detector is idempotent: applying it to its own output with
the same parameters returns that output unchanged, since every
retained pod passes the gates and its match decision is determined by
its stored fields. -/
theorem detect_idempotent (pods : List Pod) (now e t : Int) :
    detect_time_failure_pattern (detect_time_failure_pattern pods now e t) now e t =
      detect_time_failure_pattern pods now e t := by
  rw [detect_eq_filter pods, detect_eq_filter]
  exact List.filter_eq_self.mpr fun pod hmem => (List.mem_filter.mp hmem).2

/-- C10: with a strictly negative tolerance the result is empty, since
the deviation is an absolute value and hence never below zero. -/
theorem negative_tolerance_empty_result (pods : List Pod) (now e t : Int) (h : t < 0) :
    detect_time_failure_pattern pods now e t = [] := by
  rw [detect_eq_filter]
  refine List.filter_eq_nil_iff.mpr fun pod hmem => ?_
  rw [matchesPattern, decide_eq_true_eq]
  rintro ⟨-, habs⟩
  have hnn : (0 : Int) ≤ |pod.uptime now - e| := abs_nonneg _
  omega

theorem negative_tolerance_witness :
    (-1 : Int) < 0 ∧
    detect_time_failure_pattern [Pod.mk "pod-1" "Failed" 0 (some 600)] 0 600 (-1) = [] :=
  ⟨by decide,
    negative_tolerance_empty_result [Pod.mk "pod-1" "Failed" 0 (some 600)] 0 600 (-1)
      (by decide)⟩

end TimeFailure
